import Mathlib

/-!
Verification development for the Real-Time Object Detection System
(React/TypeScript). Shallow embedding of the frame-processing core:
the mock detection adapter, the statistics aggregation, the recording
controller, the detect loop, the UI/source-switch state machine and
the app context accessor. JavaScript numbers are modelled as `ℚ`
(all claims concern exact comparisons, sums and one exact division),
JavaScript arrays as `List`, and thrown exceptions as `Except`.
-/

namespace RTOD

/-- Data model (src/types/index.ts, `DetectionResult`): `class` is a
reserved word in Lean, so the field is named `className` (the source
itself uses `className` for the destructured local). `bbox` is
`[x, y, width, height]` normalized to `[0,1]`. -/
structure DetectionResult where
  className : String
  confidence : ℚ
  bbox : ℚ × ℚ × ℚ × ℚ
deriving DecidableEq

/-- Classes that YOLOv8 can detect (src mockDetection module). -/
def DETECTION_CLASSES : List String :=
  ["person", "car", "truck", "motorcycle", "bicycle", "bus",
   "traffic light", "stop sign", "bench", "dog", "cat"]

/-- One iteration's worth of the random draws consumed by `mockDetection`:
the raw confidence draw, the class index (`Math.floor(Math.random() * 11)`,
always in range, hence `Fin 11`), and the four raw bbox draws in `[0,1]`.
The random source is made an explicit input list; its length plays the
role of `numObjects`. -/
structure MockCandidate where
  confidence : ℚ
  classIndex : Fin 11
  rx : ℚ
  ry : ℚ
  rw : ℚ
  rh : ℚ
deriving DecidableEq

/-- The detection built for one candidate that passed the threshold test
(mockDetection loop body): `x = rx*0.8`, `y = ry*0.8`,
`width = rw*0.2 + 0.1`, `height = rh*0.2 + 0.1`. -/
def mkMockResult (cand : MockCandidate) : DetectionResult :=
  { className := DETECTION_CLASSES.get (Fin.cast (by rfl) cand.classIndex)
    confidence := cand.confidence
    bbox := (cand.rx * (4/5), cand.ry * (4/5),
             cand.rw * (1/5) + 1/10, cand.rh * (1/5) + 1/10) }

/-- mockDetection (src mock detection adapter): iterates over the random
draws, pushing a result exactly when `confidence >= confidenceThreshold`. -/
def mockDetection (confidenceThreshold : ℚ) (rand : List MockCandidate) :
    List DetectionResult :=
  rand.foldl
    (fun results cand =>
      if cand.confidence ≥ confidenceThreshold then results ++ [mkMockResult cand]
      else results)
    []

/-- Statistics shape computed by `StatisticsPanel.stats`. -/
structure Statistics where
  objectCount : Nat
  classCounts : List (String × Nat)
  avgConfidence : ℚ
deriving DecidableEq

/-- One step of `classCount[result.class] = (classCount[result.class] || 0) + 1`
on a JavaScript object, modelled as an insertion-ordered association list
(string-keyed JS objects enumerate in insertion order): an existing key is
incremented in place, a new key is appended at the end. -/
def bumpClass (m : List (String × Nat)) (c : String) : List (String × Nat) :=
  match m with
  | [] => [(c, 1)]
  | (k, n) :: rest => if k = c then (k, n + 1) :: rest else (k, n) :: bumpClass rest c

/-- Stable insertion of an entry into a list sorted by descending count:
the new element goes before every entry with a `≤` count, so an element
inserted later (further from the original front) lands after earlier ties. -/
def insertByCountDesc (x : String × Nat) : List (String × Nat) → List (String × Nat)
  | [] => [x]
  | y :: ys => if y.2 ≤ x.2 then x :: y :: ys else y :: insertByCountDesc x ys

/-- Model of `Object.entries(classCount).sort((a, b) => b[1] - a[1])`:
ECMAScript `Array.prototype.sort` is required to be stable, and a stable
sort for a total preorder comparator has a unique result, realized here
as insertion sort by descending count. -/
def sortByCountDesc : List (String × Nat) → List (String × Nat)
  | [] => []
  | x :: xs => insertByCountDesc x (sortByCountDesc xs)

/-- The class-count pass of the `forEach`, split out so the ordering claims
can speak about the insertion-ordered entries list. -/
def classCountOf (detectionResults : List DetectionResult) : List (String × Nat) :=
  detectionResults.foldl (fun m r => bumpClass m r.className) []

/-- StatisticsPanel.stats: one `forEach` pass accumulates the class counts,
the total confidence and the object count; `avgConfidence` is
`totalConfidence / totalObjects` when `totalObjects > 0`, else `0`;
`classCounts` is the entries list sorted by descending count. -/
def statsOf (detectionResults : List DetectionResult) : Statistics :=
  let acc := detectionResults.foldl
    (fun acc r => (bumpClass acc.1 r.className, acc.2.1 + r.confidence, acc.2.2 + 1))
    (([] : List (String × Nat)), (0 : ℚ), (0 : Nat))
  { objectCount := acc.2.2
    classCounts := sortByCountDesc acc.1
    avgConfidence := if acc.2.2 > 0 then acc.2.1 / (acc.2.2 : ℚ) else 0 }

/-- Sum of the counts of a class-count entries list (the claims' phrase
"sum over all classes of classCounts"). -/
def sumCounts (l : List (String × Nat)) : Nat := (l.map Prod.snd).sum

/-- Recording state of the ObjectDetection component. Binary chunks are
modelled by opaque identifiers (`Nat`). `closureChunks` is the `chunks`
array captured by the recorder's `ondataavailable`/`onstop` closures when
the recorder is created in the webcam effect — it lives as long as the
recorder object, across recording sessions. `recordedChunks` is the React
state of the same name. -/
structure RecorderState where
  closureChunks : List Nat
  recordedChunks : List Nat
  recording : Bool
deriving DecidableEq

/-- Events hitting the recorder: the recording effect observing
`isRecording` flip to true (`setRecordedChunks([]); mediaRecorder.start()`)
or to false while the recorder is recording (`mediaRecorder.stop()`), and
the browser delivering a data chunk of the given size to
`ondataavailable` while recording. -/
inductive RecEvent
  | startRec
  | dataAvailable (size : Nat) (data : Nat)
  | stopRec
deriving DecidableEq

/-- One transition of the recording machinery (recording effect plus the
recorder callbacks installed in the webcam effect). `ondataavailable`
appends to the closure array when `e.data.size > 0`; `onstop` copies the
closure array into `recordedChunks` (`chunks.slice()`). Note that nothing
ever empties the closure array. -/
def recStep (s : RecorderState) : RecEvent → RecorderState
  | .startRec =>
      if s.recording then s
      else { s with recordedChunks := [], recording := true }
  | .dataAvailable size d =>
      if s.recording ∧ size > 0 then { s with closureChunks := s.closureChunks ++ [d] }
      else s
  | .stopRec =>
      if s.recording then
        { s with recording := false, recordedChunks := s.closureChunks }
      else s

/-- Recorder state right after the webcam effect created the recorder:
fresh closure array, no recorded chunks, inactive. -/
def recInit : RecorderState := ⟨[], [], false⟩

/-- Run a sequence of recording events from the post-creation state. -/
def recRun (es : List RecEvent) : RecorderState := es.foldl recStep recInit

/-- The artifact produced by `downloadRecording`: the blob parts and the
download filename. -/
structure Artifact where
  parts : List Nat
  filename : String
deriving DecidableEq

/-- downloadRecording (ObjectDetection): returns early, producing no
artifact, when `recordedChunks.length === 0` (the realization of the
spec's `NothingRecorded` failure); otherwise builds one blob from the
chunks and downloads it as `detection-recording.webm`. -/
def downloadRecording (recordedChunks : List Nat) : Option Artifact :=
  if recordedChunks.length = 0 then none
  else some { parts := recordedChunks, filename := "detection-recording.webm" }

/-- The adapter's failure signal (spec taxonomy `InferenceError`). -/
inductive InferenceError
  | inferenceError
deriving DecidableEq

/-- The guards read at the top of one `detect` callback: the flags and
refs checked on line one, `canvas.getContext('2d')` availability, and
`video.readyState === 4`. -/
structure DetectEnv where
  isDetecting : Bool
  hasVideo : Bool
  videoRefSet : Bool
  canvasRefSet : Bool
  ctxAvailable : Bool
  videoReady : Bool
deriving DecidableEq

/-- What one `detect` cycle leaves behind: the detection results visible
to rendering/statistics after the cycle, and whether
`requestAnimationFrame(detect)` was reached (so the loop continues). -/
structure CycleOutcome where
  detectionResults : List DetectionResult
  frameScheduled : Bool
deriving DecidableEq

/-- One cycle of the `detect` loop, parameterized by the outcome of the
adapter call so failure behaviour can be stated. Control flow follows the
source: the first guard and the missing-context guard return before the
`requestAnimationFrame` line; when the video is ready the adapter is
called with no surrounding try/catch, so a thrown `InferenceError`
propagates out of the callback and the scheduling line never runs; on
success `setDetectionResults(results)` replaces the list and the next
frame is scheduled; when the video is not ready the cycle is skipped but
the next frame is still scheduled. -/
def detectCycle (env : DetectEnv) (adapter : Except InferenceError (List DetectionResult))
    (prev : List DetectionResult) : Except InferenceError CycleOutcome :=
  if ¬env.isDetecting ∨ ¬env.hasVideo ∨ ¬env.videoRefSet ∨ ¬env.canvasRefSet then
    Except.ok ⟨prev, false⟩
  else if ¬env.ctxAvailable then Except.ok ⟨prev, false⟩
  else if env.videoReady then
    match adapter with
    | Except.error e => Except.error e
    | Except.ok results => Except.ok ⟨results, true⟩
  else Except.ok ⟨prev, true⟩

/-- The detect callback as written in the source: the adapter call is
`mockDetection(confidenceThreshold)`, which always returns a list. -/
def detectBody (env : DetectEnv) (confidenceThreshold : ℚ) (rand : List MockCandidate)
    (prev : List DetectionResult) : Except InferenceError CycleOutcome :=
  detectCycle env (Except.ok (mockDetection confidenceThreshold rand)) prev

/-- The `videoSource` tag of AppContext ('webcam' | 'file' | null). -/
inductive VideoSourceTag
  | webcam
  | file
deriving DecidableEq

/-- State of the source-selection / webcam-effect machinery, covering
AppContext fields (`videoSource`, `isDetecting`, `uploadedVideo`), the
component state `hasVideo`, the in-flight `getUserMedia` promise, and a
resource ledger: `streams` records, per `MediaStream` ever handed out by
`getUserMedia`, the number of `track.stop()` calls on each of its tracks;
`activeStream` is the stream attached as `videoRef.current.srcObject`;
`revokedUrls` records `URL.revokeObjectURL` calls; `uploadedVideo` holds
the object URL created by `handleFileUpload`. `cleanupArmed` is true when
the most recent run of the webcam effect took the webcam branch (the only
branch that returns a cleanup function). -/
structure SysState where
  videoSource : Option VideoSourceTag
  isDetecting : Bool
  hasVideo : Bool
  pendingPermission : Bool
  uploadedVideo : Option Nat
  activeStream : Option Nat
  streams : List (List Nat)
  revokedUrls : List Nat
  cleanupArmed : Bool
  nextUrl : Nat
deriving DecidableEq

/-- Initial AppProvider/component state: no source, not detecting,
no video, nothing allocated. -/
def initState : SysState :=
  { videoSource := none, isDetecting := false, hasVideo := false
    pendingPermission := false, uploadedVideo := none, activeStream := none
    streams := [], revokedUrls := [], cleanupArmed := false, nextUrl := 0 }

/-- Calling `track.stop()` on every track of stream `i` (the cleanup's
`stream.getTracks().forEach(track => track.stop())`), recorded in the
ledger as one increment per track. -/
def stopTracks (streams : List (List Nat)) (i : Nat) : List (List Nat) :=
  streams.set i ((streams.getD i []).map (fun t => t + 1))

/-- The webcam effect's cleanup, run by React exactly once before the
effect re-runs: only the webcam branch returned a cleanup, and it acts
only when a stream is attached as `srcObject` (it stops every track,
detaches the stream and clears `hasVideo`). -/
def runEffectCleanup (s : SysState) : SysState :=
  if s.cleanupArmed then
    match s.activeStream with
    | some i => { s with streams := stopTracks s.streams i
                         activeStream := none, hasVideo := false }
    | none => s
  else s

/-- The webcam effect's body, dispatching on `videoSource`: the webcam
branch calls `getUserMedia` (a permission request becomes pending) and
returns a cleanup; the file branch sets `hasVideo` from `uploadedVideo`
and returns no cleanup; otherwise `hasVideo` is cleared. -/
def webcamEffectBody (s : SysState) : SysState :=
  match s.videoSource with
  | some VideoSourceTag.webcam => { s with pendingPermission := true, cleanupArmed := true }
  | some VideoSourceTag.file => { s with hasVideo := s.uploadedVideo.isSome
                                         cleanupArmed := false }
  | none => { s with hasVideo := false, cleanupArmed := false }

/-- External events: the two Layout source buttons, the file picker (only
rendered when `videoSource === 'file'` and there is no video yet), the
Start/Stop Detection button (only rendered when `hasVideo`), and the
`getUserMedia` promise resolving or rejecting. -/
inductive UiEvent
  | clickWebcam
  | clickFile
  | uploadFile
  | toggleDetection
  | permissionGranted
  | permissionDenied
deriving DecidableEq

/-- One step of the source-selection machine. The Layout buttons set the
source and clear `isDetecting` if set; the webcam effect (cleanup, then
body) re-runs only when its dependencies `[videoSource, uploadedVideo]`
actually changed. `permissionGranted` attaches a fresh two-track stream
and sets `hasVideo`; `permissionDenied` runs the catch handler, which
only logs and alerts — it touches no state. -/
def step (s : SysState) : UiEvent → SysState
  | UiEvent.clickWebcam =>
      if s.videoSource = some VideoSourceTag.webcam then { s with isDetecting := false }
      else
        webcamEffectBody (runEffectCleanup
          { s with videoSource := some VideoSourceTag.webcam, isDetecting := false })
  | UiEvent.clickFile =>
      if s.videoSource = some VideoSourceTag.file then { s with isDetecting := false }
      else
        webcamEffectBody (runEffectCleanup
          { s with videoSource := some VideoSourceTag.file, isDetecting := false })
  | UiEvent.uploadFile =>
      if s.videoSource = some VideoSourceTag.file ∧ ¬s.hasVideo then
        webcamEffectBody (runEffectCleanup
          { s with uploadedVideo := some s.nextUrl, nextUrl := s.nextUrl + 1 })
      else s
  | UiEvent.toggleDetection =>
      if s.hasVideo then { s with isDetecting := ¬s.isDetecting } else s
  | UiEvent.permissionGranted =>
      if s.pendingPermission ∧ s.videoSource = some VideoSourceTag.webcam then
        { s with pendingPermission := false
                 activeStream := some s.streams.length
                 streams := s.streams ++ [[0, 0]]
                 hasVideo := true }
      else s
  | UiEvent.permissionDenied =>
      if s.pendingPermission then { s with pendingPermission := false } else s

/-- Run a UI event trace from the initial state. -/
def run (es : List UiEvent) : SysState := es.foldl step initState

/-- Modelled from the spec (§3, §4.1: "switching sources must fully tear
down the previous capture handle"): a file capture handle — the object
URL created for the uploaded file — counts as released when the app no
longer holds it as `uploadedVideo` or has revoked it. -/
def fileHandleReleased (s : SysState) (url : Nat) : Prop :=
  s.uploadedVideo ≠ some url ∨ url ∈ s.revokedUrls

/-- The AppContext value (src/context/AppContext.tsx): the data fields of
`AppContextType`; the paired setters are state updaters and carry no data
of their own. -/
structure AppContextType where
  videoSource : Option VideoSourceTag
  isDetecting : Bool
  selectedModel : String
  confidenceThreshold : ℚ
  detectionResults : List DetectionResult
  isRecording : Bool
  uploadedVideo : Option String
deriving DecidableEq

/-- useAppContext: `useContext` yields the provided value, or `undefined`
when no `AppProvider` is above the caller, in which case the hook throws
`Error('useAppContext must be used within an AppProvider')`. -/
def useAppContext (context : Option AppContextType) : Except String AppContextType :=
  match context with
  | none => Except.error "useAppContext must be used within an AppProvider"
  | some v => Except.ok v

/-- The spec's scenario adapter configuration: random draws whose
confidences are 0.95, 0.85 and 0.91. -/
def scenarioCandidates : List MockCandidate :=
  [⟨95/100, 0, 0, 0, 0, 0⟩, ⟨85/100, 0, 0, 0, 0, 0⟩, ⟨91/100, 0, 0, 0, 0, 0⟩]

/-- A concrete candidate used for witnesses. -/
def witnessCandidate : MockCandidate := ⟨3/4, 0, 0, 0, 0, 0⟩

/-- A concrete detection used for witnesses. -/
def sampleDetection : DetectionResult :=
  { className := "person", confidence := 1/2, bbox := (0, 0, 1/10, 1/10) }

/-- Two complete recording sessions on the same recorder: session one
records chunk 10, session two records chunk 20. -/
def failingRecTrace : List RecEvent :=
  [RecEvent.startRec, RecEvent.dataAvailable 1 10, RecEvent.stopRec,
   RecEvent.startRec, RecEvent.dataAvailable 1 20, RecEvent.stopRec]

/-- A recording session that is stopped before any chunk arrives. -/
def emptyRecTrace : List RecEvent := [RecEvent.startRec, RecEvent.stopRec]

/-- A detect-loop environment in which every guard passes. -/
def envAllReady : DetectEnv := ⟨true, true, true, true, true, true⟩

/-- Upload a file, switch to the webcam (which keeps `hasVideo` from the
file session, since the file branch installed no cleanup), start
detection while the permission request is pending, then have the user
deny camera permission. -/
def deniedAfterSwitchTrace : List UiEvent :=
  [UiEvent.clickFile, UiEvent.uploadFile, UiEvent.clickWebcam,
   UiEvent.toggleDetection, UiEvent.permissionDenied]

/-- Select the file source, upload a file and start detecting. -/
def detectingFileTrace : List UiEvent :=
  [UiEvent.clickFile, UiEvent.uploadFile, UiEvent.toggleDetection]

/-- As `detectingFileTrace`, then switch the source to the webcam. -/
def fileToWebcamTrace : List UiEvent :=
  [UiEvent.clickFile, UiEvent.uploadFile, UiEvent.toggleDetection, UiEvent.clickWebcam]

/-- Acquire the webcam successfully and start detecting. -/
def detectingWebcamTrace : List UiEvent :=
  [UiEvent.clickWebcam, UiEvent.permissionGranted, UiEvent.toggleDetection]

theorem mem_mockDetection_aux (t : ℚ) (rand : List MockCandidate) :
    ∀ (acc : List DetectionResult) (d : DetectionResult),
      d ∈ rand.foldl
        (fun results cand =>
          if cand.confidence ≥ t then results ++ [mkMockResult cand] else results) acc →
      d ∈ acc ∨ t ≤ d.confidence := by
  induction rand with
  | nil => intro acc d h; exact Or.inl h
  | cons c cs ih =>
    intro acc d h
    simp only [List.foldl_cons] at h
    rcases ih _ d h with h' | h'
    · by_cases hc : c.confidence ≥ t
      · rw [if_pos hc] at h'
        rcases List.mem_append.mp h' with h2 | h2
        · exact Or.inl h2
        · right
          have hd : d = mkMockResult c := by simpa using h2
          subst hd
          simpa [mkMockResult] using hc
      · rw [if_neg hc] at h'
        exact Or.inl h'
    · exact Or.inr h'

/-- C1: every detection returned by the mock adapter has
`confidence ≥ threshold`, and with threshold 0.9 and candidate
confidences 0.95, 0.85, 0.91 the filtered output has length 2. -/
theorem claim_C1_adapter_respects_threshold :
    (∀ (threshold : ℚ) (rand : List MockCandidate) (d : DetectionResult),
        d ∈ mockDetection threshold rand → threshold ≤ d.confidence) ∧
    (mockDetection (9/10) scenarioCandidates).length = 2 := by
  constructor
  · intro t rand d hd
    have h := mem_mockDetection_aux t rand [] d hd
    simpa using h
  · norm_num [mockDetection, scenarioCandidates, List.foldl]

/-- Witness for C1: the mock adapter run at threshold 1/2 on a single
candidate of confidence 3/4 returns that candidate's detection, and the
claim theorem yields the threshold bound for it. -/
theorem claim_C1_witness :
    ((1 : ℚ)/2) ≤ (mkMockResult witnessCandidate).confidence :=
  claim_C1_adapter_respects_threshold.1 (1/2) [witnessCandidate]
    (mkMockResult witnessCandidate)
    (by norm_num [mockDetection, witnessCandidate, List.foldl])

theorem stats_foldl_split (l : List DetectionResult) :
    ∀ (m : List (String × Nat)) (c : ℚ) (n : Nat),
      l.foldl (fun acc r => (bumpClass acc.1 r.className, acc.2.1 + r.confidence, acc.2.2 + 1))
          (m, c, n)
        = (l.foldl (fun m r => bumpClass m r.className) m,
           c + (l.map (fun r => r.confidence)).sum, n + l.length) := by
  induction l with
  | nil => intro m c n; simp
  | cons x xs ih =>
    intro m c n
    simp only [List.foldl_cons, List.map_cons, List.sum_cons, List.length_cons]
    rw [ih]
    simp [Prod.mk.injEq, add_assoc, add_comm, add_left_comm]

theorem statsOf_objectCount (D : List DetectionResult) :
    (statsOf D).objectCount = D.length := by
  simp only [statsOf]
  rw [stats_foldl_split]
  simp

theorem statsOf_classCounts (D : List DetectionResult) :
    (statsOf D).classCounts = sortByCountDesc (classCountOf D) := by
  simp only [statsOf, classCountOf]
  rw [stats_foldl_split]

theorem statsOf_avg (D : List DetectionResult) :
    (statsOf D).avgConfidence
      = if 0 < D.length then (D.map (fun r => r.confidence)).sum / (D.length : ℚ) else 0 := by
  simp only [statsOf]
  rw [stats_foldl_split]
  simp

theorem sumCounts_bumpClass (m : List (String × Nat)) (c : String) :
    sumCounts (bumpClass m c) = sumCounts m + 1 := by
  induction m with
  | nil => simp [bumpClass, sumCounts]
  | cons p rest ih =>
    obtain ⟨k, n⟩ := p
    by_cases h : k = c <;> simp [bumpClass, h, sumCounts] at * <;> omega

theorem sumCounts_foldl_bump (l : List DetectionResult) :
    ∀ m, sumCounts (l.foldl (fun m r => bumpClass m r.className) m) = sumCounts m + l.length := by
  induction l with
  | nil => intro m; simp
  | cons x xs ih =>
    intro m
    simp only [List.foldl_cons, List.length_cons]
    rw [ih, sumCounts_bumpClass]
    omega

theorem sumCounts_insertByCountDesc (x : String × Nat) (l : List (String × Nat)) :
    sumCounts (insertByCountDesc x l) = x.2 + sumCounts l := by
  induction l with
  | nil => simp [insertByCountDesc, sumCounts]
  | cons y ys ih =>
    by_cases h : y.2 ≤ x.2 <;> simp [insertByCountDesc, h, sumCounts] at * <;> omega

theorem sumCounts_sortByCountDesc (l : List (String × Nat)) :
    sumCounts (sortByCountDesc l) = sumCounts l := by
  induction l with
  | nil => rfl
  | cons x xs ih =>
    have hs : sortByCountDesc (x :: xs) = insertByCountDesc x (sortByCountDesc xs) := rfl
    rw [hs, sumCounts_insertByCountDesc, ih]
    simp [sumCounts]

/-- C2: the statistics aggregation counts every detection
(`totalObjects = len(D)`), and the class counts partition them
(`sum(classCounts.values()) = totalObjects`). -/
theorem claim_C2_totals (D : List DetectionResult) :
    (statsOf D).objectCount = D.length ∧
    sumCounts (statsOf D).classCounts = (statsOf D).objectCount := by
  refine ⟨statsOf_objectCount D, ?_⟩
  rw [statsOf_classCounts, sumCounts_sortByCountDesc, statsOf_objectCount]
  simpa [classCountOf, sumCounts] using sumCounts_foldl_bump D []

/-- C3: `avgConfidence` is the sum of the confidences divided by the
number of detections, and 0 for the empty list. -/
theorem claim_C3_avgConfidence (D : List DetectionResult) :
    (D = [] → (statsOf D).avgConfidence = 0) ∧
    (D ≠ [] → (statsOf D).avgConfidence
        = (D.map (fun r => r.confidence)).sum / (D.length : ℚ)) := by
  constructor
  · intro h; subst h; rfl
  · intro h
    rw [statsOf_avg, if_pos]
    exact List.length_pos.mpr h

/-- Witness for C3: the claim theorem applied to the empty list and to a
singleton list. -/
theorem claim_C3_witness :
    (statsOf []).avgConfidence = 0 ∧
    (statsOf [sampleDetection]).avgConfidence
      = (([sampleDetection].map (fun r => r.confidence)).sum)
          / (([sampleDetection].length : Nat) : ℚ) :=
  ⟨(claim_C3_avgConfidence []).1 rfl,
   (claim_C3_avgConfidence [sampleDetection]).2 (by simp)⟩

theorem mem_insertByCountDesc {y x : String × Nat} {l : List (String × Nat)} :
    y ∈ insertByCountDesc x l ↔ y = x ∨ y ∈ l := by
  induction l with
  | nil => simp [insertByCountDesc]
  | cons z zs ih =>
    by_cases h : z.2 ≤ x.2 <;> simp [insertByCountDesc, h, ih] <;> tauto

theorem pairwise_insertByCountDesc {x : String × Nat} {l : List (String × Nat)}
    (hl : l.Pairwise (fun a b => b.2 ≤ a.2)) :
    (insertByCountDesc x l).Pairwise (fun a b => b.2 ≤ a.2) := by
  induction l with
  | nil => simp [insertByCountDesc]
  | cons y ys ih =>
    rcases List.pairwise_cons.mp hl with ⟨hy, hys⟩
    by_cases h : y.2 ≤ x.2
    · have he : insertByCountDesc x (y :: ys) = x :: y :: ys := by
        simp [insertByCountDesc, h]
      rw [he]
      refine List.pairwise_cons.mpr ⟨?_, hl⟩
      intro z hz
      rcases List.mem_cons.mp hz with rfl | hz'
      · exact h
      · exact le_trans (hy z hz') h
    · have he : insertByCountDesc x (y :: ys) = y :: insertByCountDesc x ys := by
        simp [insertByCountDesc, h]
      rw [he]
      refine List.pairwise_cons.mpr ⟨?_, ih hys⟩
      intro z hz
      rcases mem_insertByCountDesc.mp hz with rfl | hz'
      · exact le_of_not_le h
      · exact hy z hz'

theorem pairwise_sortByCountDesc (l : List (String × Nat)) :
    (sortByCountDesc l).Pairwise (fun a b => b.2 ≤ a.2) := by
  induction l with
  | nil => simp [sortByCountDesc]
  | cons x xs ih => exact pairwise_insertByCountDesc ih

theorem filter_insertByCountDesc (x : String × Nat) (l : List (String × Nat)) (c : Nat) :
    (insertByCountDesc x l).filter (fun p => p.2 == c)
      = if x.2 = c then x :: l.filter (fun p => p.2 == c)
        else l.filter (fun p => p.2 == c) := by
  induction l with
  | nil => by_cases h : x.2 = c <;> simp [insertByCountDesc, h]
  | cons y ys ih =>
    by_cases hy : y.2 ≤ x.2
    · have he : insertByCountDesc x (y :: ys) = x :: y :: ys := by
        simp [insertByCountDesc, hy]
      rw [he]
      by_cases hx : x.2 = c <;> simp [hx, List.filter_cons]
    · have he : insertByCountDesc x (y :: ys) = y :: insertByCountDesc x ys := by
        simp [insertByCountDesc, hy]
      rw [he]
      by_cases hx : x.2 = c
      · have hyc : ¬ y.2 = c := by omega
        simp [hx, hyc, List.filter_cons, ih]
      · by_cases hyc : y.2 = c <;> simp [hx, hyc, List.filter_cons, ih]

theorem filter_sortByCountDesc (l : List (String × Nat)) (c : Nat) :
    (sortByCountDesc l).filter (fun p => p.2 == c) = l.filter (fun p => p.2 == c) := by
  induction l with
  | nil => rfl
  | cons x xs ih =>
    have hs : sortByCountDesc (x :: xs) = insertByCountDesc x (sortByCountDesc xs) := rfl
    rw [hs, filter_insertByCountDesc]
    by_cases hx : x.2 = c <;> simp [hx, List.filter_cons, ih]

/-- C4: the displayed classCounts are sorted by descending count, and the
sort is stable: for every count value, the entries carrying it appear in
exactly the order of the insertion-ordered entries list, i.e. the order
in which each class was first encountered in the detection list. -/
theorem claim_C4_classCounts_ordering (D : List DetectionResult) :
    ((statsOf D).classCounts).Pairwise (fun a b => b.2 ≤ a.2) ∧
    ∀ c : Nat, ((statsOf D).classCounts).filter (fun p => p.2 == c)
      = (classCountOf D).filter (fun p => p.2 == c) := by
  rw [statsOf_classCounts]
  exact ⟨pairwise_sortByCountDesc _, fun c => filter_sortByCountDesc _ c⟩

/-- C5 is violated by the code: after a stop/start/stop sequence the
closure `chunks` array created with the recorder still holds session
one's chunk, so the second session finalizes to `[10, 20]` rather than
to `[20]` (the `setRecordedChunks([])` on start clears only the React
state, never the closure array that `onstop` copies from). -/
theorem claim_C5_restart_keeps_old_chunks :
    (recRun failingRecTrace).recordedChunks = [10, 20] ∧
    (recRun failingRecTrace).recordedChunks ≠ [20] := by
  constructor
  · rfl
  · intro h
    simp [recRun, failingRecTrace, recStep, recInit] at h

/-- C6: a session stopped with zero chunks appended finalizes to an empty
`recordedChunks`, and `downloadRecording` then returns early, producing
no artifact (the realization of the spec's `NothingRecorded` failure). -/
theorem claim_C6_export_empty_fails :
    (recRun emptyRecTrace).recordedChunks = [] ∧
    downloadRecording (recRun emptyRecTrace).recordedChunks = none := by
  exact ⟨rfl, rfl⟩

/-- Counterexample to C7: a cycle whose adapter call fails does not retain
the previous detection list and continue — the detect callback has no
try/catch, so the error propagates out of the cycle and the
`requestAnimationFrame` line is never reached. -/
theorem claim_C7_counterexample :
    detectCycle envAllReady (Except.error InferenceError.inferenceError) [sampleDetection]
        = Except.error InferenceError.inferenceError ∧
    detectCycle envAllReady (Except.error InferenceError.inferenceError) [sampleDetection]
        ≠ Except.ok ⟨[sampleDetection], true⟩ := by
  refine ⟨rfl, ?_⟩
  intro h
  have h1 : detectCycle envAllReady (Except.error InferenceError.inferenceError) [sampleDetection]
      = Except.error InferenceError.inferenceError := rfl
  rw [h1] at h
  exact Except.noConfusion h

/-- C7 amended: the adapter actually wired into the detect loop is
`mockDetection`, a total function, so the adapter call never fails and
every cycle of the loop as written completes without an exception. -/
theorem claim_C7_amended (env : DetectEnv) (threshold : ℚ) (rand : List MockCandidate)
    (prev : List DetectionResult) :
    ∃ out : CycleOutcome, detectBody env threshold rand prev = Except.ok out := by
  unfold detectBody detectCycle
  split
  · exact ⟨_, rfl⟩
  · split
    · exact ⟨_, rfl⟩
    · split
      · exact ⟨_, rfl⟩
      · exact ⟨_, rfl⟩

/-- The `getUserMedia` catch handler only logs and alerts: it leaves the
detecting flag exactly as it was. -/
theorem step_permissionDenied_isDetecting (s : SysState) :
    (step s UiEvent.permissionDenied).isDetecting = s.isDetecting := by
  by_cases h : s.pendingPermission <;> simp [step, h]

/-- C8 is violated by the code: in the reachable trace that uploads a
file, switches to the webcam (keeping `hasVideo` true, since the file
branch installed no effect cleanup), starts detection while the
permission request is pending, and then has permission denied, the catch
handler leaves `isDetecting` true — nothing forces it false. -/
theorem claim_C8_denied_leaves_detecting_true :
    (run deniedAfterSwitchTrace).isDetecting = true ∧
    (run deniedAfterSwitchTrace).pendingPermission = false := by
  exact ⟨rfl, rfl⟩

/-- C9 amended: switching sources clears the detecting flag; switching
away from an active webcam stream runs the single effect cleanup, which
stops every track of the attached stream exactly once (each stop count
goes from its old value to old value + 1) and detaches it; but switching
from a file source to the webcam retains the uploaded file's object URL
(`uploadedVideo` is kept and never revoked), so the file handle is not
released. -/
theorem claim_C9_amended :
    (∀ (s : SysState) (i : Nat) (ts : List Nat),
        s.videoSource = some VideoSourceTag.webcam →
        s.cleanupArmed = true →
        s.activeStream = some i →
        s.streams[i]? = some ts →
        (step s UiEvent.clickFile).isDetecting = false ∧
        (step s UiEvent.clickFile).streams[i]? = some (ts.map (fun t => t + 1)) ∧
        (step s UiEvent.clickFile).activeStream = none) ∧
    ((run fileToWebcamTrace).isDetecting = false ∧
     (run fileToWebcamTrace).uploadedVideo = some 0 ∧
     (run fileToWebcamTrace).revokedUrls = []) := by
  constructor
  · intro s i ts hsrc harm hact hget
    have hlen : i < s.streams.length := by
      by_contra hc
      rw [List.getElem?_eq_none (le_of_not_lt hc)] at hget
      exact Option.noConfusion hget
    have hgetD : s.streams[i]?.getD [] = ts := by
      rw [hget]
      rfl
    refine ⟨?_, ?_, ?_⟩
    · simp [step, webcamEffectBody, runEffectCleanup, hsrc, harm, hact]
    · simp [step, webcamEffectBody, runEffectCleanup, hsrc, harm, hact, stopTracks, hgetD]
      exact List.getElem?_set_eq_of_lt _ hlen
    · simp [step, webcamEffectBody, runEffectCleanup, hsrc, harm, hact]
  · exact ⟨rfl, rfl, rfl⟩

/-- Witness for C9's amended theorem, at the state reached by acquiring
the webcam, being granted permission and starting detection. -/
theorem claim_C9_witness :
    (step (run detectingWebcamTrace) UiEvent.clickFile).isDetecting = false ∧
    (step (run detectingWebcamTrace) UiEvent.clickFile).streams[0]? = some [1, 1] ∧
    (step (run detectingWebcamTrace) UiEvent.clickFile).activeStream = none := by
  have h := claim_C9_amended.1 (run detectingWebcamTrace) 0 [0, 0]
    (by rfl) (by rfl) (by rfl) (by rfl)
  simpa using h

/-- Counterexample to C9: with the file source active and detection
running, switching to the webcam stops detection but does not release the
prior capture handle — the uploaded file's object URL survives the switch
unrevoked, a leaked handle. -/
theorem claim_C9_counterexample :
    (run detectingFileTrace).isDetecting = true ∧
    (run detectingFileTrace).uploadedVideo = some 0 ∧
    ¬ fileHandleReleased (run fileToWebcamTrace) 0 := by
  refine ⟨rfl, rfl, ?_⟩
  intro h
  rcases h with h | h
  · exact h rfl
  · simp [run, fileToWebcamTrace, step, initState, webcamEffectBody, runEffectCleanup] at h

/-- C10: `useAppContext` throws exactly when no provider supplied a
context value, and returns the provided value otherwise. -/
theorem claim_C10_useAppContext :
    useAppContext none = Except.error "useAppContext must be used within an AppProvider" ∧
    ∀ v : AppContextType, useAppContext (some v) = Except.ok v :=
  ⟨rfl, fun _ => rfl⟩

end RTOD
